import Mathlib

/-!
Shallow embedding of the filesystem platform abstraction layer (PAL) of this
repository: `src/libstd/pal/fs.rs` together with its two backends
`src/libstd/sys/unix/fs.rs` and `src/libstd/sys/windows/fs.rs`.

Conventions of the embedding:
* machine integers (`mode_t`, `c_int`, `DWORD`, `u64`) are modelled as `Nat`
  with explicit masking where the code relies on a fixed width;
* fallible Rust functions (`io::Result<T>`) become `Except IoError T`;
* native syscalls are modelled as explicit oracle arguments or as an abstract
  filesystem tree, so that the code's own control flow (what it checks, in
  which order, and which native calls it issues) is what the definitions
  capture.
-/

instance {ε α : Type} [DecidableEq ε] [DecidableEq α] :
    DecidableEq (Except ε α) := fun x y =>
  match x, y with
  | Except.ok a, Except.ok b =>
    if h : a = b then Decidable.isTrue (by rw [h])
    else Decidable.isFalse (fun hc => h (by cases hc; rfl))
  | Except.error a, Except.error b =>
    if h : a = b then Decidable.isTrue (by rw [h])
    else Decidable.isFalse (fun hc => h (by cases hc; rfl))
  | Except.ok _, Except.error _ => Decidable.isFalse (fun hc => Except.noConfusion hc)
  | Except.error _, Except.ok _ => Decidable.isFalse (fun hc => Except.noConfusion hc)

namespace PalFs

/-! ## Error model

`io::ErrorKind` constructors actually used by the files under scrutiny,
plus the kinds named by the specification's error taxonomy (`InvalidArgument`
and `Unsupported`) so that claims mentioning them are statable. -/

inductive ErrorKind where
  | notFound
  | permissionDenied
  | alreadyExists
  | invalidInput
  | invalidArgument
  | interrupted
  | unsupported
  | other
  deriving DecidableEq, Repr

/-- An `io::Error` value: either constructed from a raw OS error code
(`Error::from_raw_os_error`) or built from a kind and a message
(`Error::new(kind, msg)`). -/
inductive IoError where
  | fromRawOsError (code : Nat)
  | newError (kind : ErrorKind) (msg : String)
  deriving DecidableEq, Repr

/-- `EINVAL` (Linux value 22), used by `sys/unix/fs.rs` via
`Error::from_raw_os_error(libc::EINVAL)`. -/
def EINVAL : Nat := 22

/-- `ERROR_INVALID_PARAMETER`, declared as the constant 87 inside
`get_access_mode`/`get_creation_mode` in `sys/windows/fs.rs`. -/
def ERROR_INVALID_PARAMETER : Nat := 87

/-- Modelled from the spec: the mapping from raw OS error codes to the
spec's error-kind taxonomy (the decoding function `decode_error_kind` lives
in `sys/unix/mod.rs` / `sys/windows/mod.rs`, which are not part of the
provided sources).  The spec's section 7 names the kind for contradictory
`OpenOptions` (`EINVAL` / `ERROR_INVALID_PARAMETER`) `InvalidArgument`. -/
def decodeErrorKind (code : Nat) : ErrorKind :=
  if code = EINVAL then ErrorKind.invalidArgument
  else if code = ERROR_INVALID_PARAMETER then ErrorKind.invalidArgument
  else ErrorKind.other

/-- The kind of an `IoError`: explicit for constructed errors, decoded from
the raw code otherwise. -/
def IoError.kind : IoError → ErrorKind
  | IoError.fromRawOsError code => decodeErrorKind code
  | IoError.newError k _ => k

/-! ## Open-flags compiler, Unix backend (`sys/unix/fs.rs`)

`OpenOptions` carries six generic booleans plus the system-specific
`custom_flags` and `mode`; only the booleans matter to the two resolution
functions. -/

/-- Linux `libc` open(2) flag values. -/
def O_RDONLY : Nat := 0
def O_WRONLY : Nat := 1
def O_RDWR : Nat := 2
def O_CREAT : Nat := 64
def O_EXCL : Nat := 128
def O_TRUNC : Nat := 512
def O_APPEND : Nat := 1024

structure OpenOptionsU where
  read : Bool
  write : Bool
  append : Bool
  truncate : Bool
  create : Bool
  create_new : Bool
  custom_flags : Nat
  mode : Nat
  deriving DecidableEq, Repr

/-- `OpenOptions::new()` on the Unix backend. -/
def OpenOptionsU.new : OpenOptionsU :=
  { read := false, write := false, append := false, truncate := false,
    create := false, create_new := false, custom_flags := 0, mode := 0o666 }

/-- `OpenOptions::get_access_mode` on the Unix backend (lines 566-575). -/
def OpenOptionsU.get_access_mode (o : OpenOptionsU) : Except IoError Nat :=
  match o.read, o.write, o.append with
  | true,  false, false => Except.ok O_RDONLY
  | false, true,  false => Except.ok O_WRONLY
  | true,  true,  false => Except.ok O_RDWR
  | false, _,     true  => Except.ok (O_WRONLY ||| O_APPEND)
  | true,  _,     true  => Except.ok (O_RDWR ||| O_APPEND)
  | false, false, false => Except.error (IoError.fromRawOsError EINVAL)

/-- `OpenOptions::get_creation_mode` on the Unix backend (lines 577-597). -/
def OpenOptionsU.get_creation_mode (o : OpenOptionsU) : Except IoError Nat :=
  match o.write, o.append with
  | true, false => goTable o
  | false, false =>
    if o.truncate || o.create || o.create_new then
      Except.error (IoError.fromRawOsError EINVAL)
    else goTable o
  | _, true =>
    if o.truncate && !o.create_new then
      Except.error (IoError.fromRawOsError EINVAL)
    else goTable o
where
  goTable (o : OpenOptionsU) : Except IoError Nat :=
    Except.ok (match o.create, o.truncate, o.create_new with
      | false, false, false => 0
      | true,  false, false => O_CREAT
      | false, true,  false => O_TRUNC
      | true,  true,  false => O_CREAT ||| O_TRUNC
      | _,     _,     true  => O_CREAT ||| O_EXCL)

/-! ## Open-flags compiler, Windows backend (`sys/windows/fs.rs`) -/

/-- Win32 access-right and disposition constants. -/
def GENERIC_READ : Nat := 0x80000000
def GENERIC_WRITE : Nat := 0x40000000
def FILE_GENERIC_WRITE : Nat := 0x120116
def FILE_WRITE_DATA : Nat := 0x2
def CREATE_NEW : Nat := 1
def CREATE_ALWAYS : Nat := 2
def OPEN_EXISTING : Nat := 3
def OPEN_ALWAYS : Nat := 4
def TRUNCATE_EXISTING : Nat := 5

/-- Bitwise complement within a 32-bit word: Rust's `!x` on `u32` (or on a
32-bit `mode_t`), i.e. `0xFFFFFFFF ^ x`. -/
def not32 (x : Nat) : Nat := (2 ^ 32 - 1) ^^^ x

structure OpenOptionsW where
  read : Bool
  write : Bool
  append : Bool
  truncate : Bool
  create : Bool
  create_new : Bool
  custom_flags : Nat
  access_mode : Option Nat
  attributes : Nat
  share_mode : Nat
  security_qos_flags : Nat
  deriving DecidableEq, Repr

/-- `OpenOptions::get_access_mode` on the Windows backend (lines 392-405).
The `access_mode` field, when set by backend-specific extension code,
overrides the boolean resolution entirely. -/
def OpenOptionsW.get_access_mode (o : OpenOptionsW) : Except IoError Nat :=
  match o.read, o.write, o.append, o.access_mode with
  | _, _, _, some m => Except.ok m
  | true,  false, false, none => Except.ok GENERIC_READ
  | false, true,  false, none => Except.ok GENERIC_WRITE
  | true,  true,  false, none => Except.ok (GENERIC_READ ||| GENERIC_WRITE)
  | false, _,     true,  none => Except.ok (FILE_GENERIC_WRITE &&& not32 FILE_WRITE_DATA)
  | true,  _,     true,  none =>
    Except.ok (GENERIC_READ ||| (FILE_GENERIC_WRITE &&& not32 FILE_WRITE_DATA))
  | false, false, false, none =>
    Except.error (IoError.fromRawOsError ERROR_INVALID_PARAMETER)

/-- `OpenOptions::get_creation_mode` on the Windows backend (lines 407-429). -/
def OpenOptionsW.get_creation_mode (o : OpenOptionsW) : Except IoError Nat :=
  match o.write, o.append with
  | true, false => goTable o
  | false, false =>
    if o.truncate || o.create || o.create_new then
      Except.error (IoError.fromRawOsError ERROR_INVALID_PARAMETER)
    else goTable o
  | _, true =>
    if o.truncate && !o.create_new then
      Except.error (IoError.fromRawOsError ERROR_INVALID_PARAMETER)
    else goTable o
where
  goTable (o : OpenOptionsW) : Except IoError Nat :=
    Except.ok (match o.create, o.truncate, o.create_new with
      | false, false, false => OPEN_EXISTING
      | true,  false, false => OPEN_ALWAYS
      | false, true,  false => TRUNCATE_EXISTING
      | true,  true,  false => CREATE_ALWAYS
      | _,     _,     true  => CREATE_NEW)

/-- Build a Unix `OpenOptions` from the six generic booleans (the setters
`read`/`write`/`append`/`truncate`/`create`/`create_new` applied to
`OpenOptions::new()`). -/
def mkOptsU (r w a t c cn : Bool) : OpenOptionsU :=
  { OpenOptionsU.new with
    read := r, write := w, append := a, truncate := t, create := c, create_new := cn }

/-- Same for the Windows backend, with no backend-specific override set. -/
def mkOptsW (r w a t c cn : Bool) : OpenOptionsW :=
  { read := r, write := w, append := a, truncate := t, create := c, create_new := cn,
    custom_flags := 0, access_mode := none,
    share_mode := 0x7, attributes := 0, security_qos_flags := 0 }

/-! ## Permissions (`FilePermissions` on both backends) -/

/-- Unix `FilePermissions { mode: mode_t }`; `mode_t` is a 32-bit integer. -/
structure FilePermissionsU where
  mode : Nat
  deriving DecidableEq, Repr

/-- `FilePermissions::readonly` on Unix (line 340): true when no class
(owner, group, others) has write permission. -/
def FilePermissionsU.readonly (p : FilePermissionsU) : Bool :=
  p.mode &&& 0o222 == 0

/-- `FilePermissions::set_readonly` on Unix (lines 345-353): `mode &= !0o222`
resp. `mode |= 0o222`. -/
def FilePermissionsU.set_readonly (p : FilePermissionsU) (r : Bool) : FilePermissionsU :=
  if r then { mode := p.mode &&& not32 0o222 }
  else { mode := p.mode ||| 0o222 }

/-- `FILE_ATTRIBUTE_READONLY`. -/
def FILE_ATTRIBUTE_READONLY : Nat := 1

/-- Windows `FilePermissions { attrs: DWORD }`. -/
structure FilePermissionsW where
  attrs : Nat
  deriving DecidableEq, Repr

/-- `FilePermissions::readonly` on Windows (line 237). -/
def FilePermissionsW.readonly (p : FilePermissionsW) : Bool :=
  !(p.attrs &&& FILE_ATTRIBUTE_READONLY == 0)

/-- `FilePermissions::set_readonly` on Windows (lines 241-247). -/
def FilePermissionsW.set_readonly (p : FilePermissionsW) (r : Bool) : FilePermissionsW :=
  if r then { attrs := p.attrs ||| FILE_ATTRIBUTE_READONLY }
  else { attrs := p.attrs &&& not32 FILE_ATTRIBUTE_READONLY }

/-! ## Unix file types and metadata -/

def S_IFMT : Nat := 0o170000
def S_IFIFO : Nat := 0o010000
def S_IFCHR : Nat := 0o020000
def S_IFDIR : Nat := 0o040000
def S_IFBLK : Nat := 0o060000
def S_IFREG : Nat := 0o100000
def S_IFLNK : Nat := 0o120000
def S_IFSOCK : Nat := 0o140000

/-- Unix `FileType { mode: mode_t }`. -/
structure FileTypeU where
  mode : Nat
  deriving DecidableEq, Repr

/-- `FileType::is` on Unix (line 367). -/
def FileTypeU.isKind (t : FileTypeU) (m : Nat) : Bool :=
  t.mode &&& S_IFMT == m

def FileTypeU.is_dir (t : FileTypeU) : Bool := t.isKind S_IFDIR
def FileTypeU.is_file (t : FileTypeU) : Bool := t.isKind S_IFREG
def FileTypeU.is_symlink (t : FileTypeU) : Bool := t.isKind S_IFLNK

/-- Placeholder for `sys::time::SystemTime` (its internals are irrelevant to
the claims; `created` on the platforms at issue never produces one). -/
structure SystemTimeU where
  sec : Int
  nsec : Int
  deriving DecidableEq, Repr

/-- Unix `FileAttr { stat: stat64 }`, restricted to the fields the claims
touch. -/
structure FileAttrU where
  st_mode : Nat
  st_size : Nat
  deriving DecidableEq, Repr

/-- `MetadataPal::file_type` on Unix (lines 246-248). -/
def FileAttrU.fileType (a : FileAttrU) : FileTypeU :=
  { mode := a.st_mode }

/-- `MetadataPal::permissions` on Unix (lines 254-256). -/
def FileAttrU.permissions (a : FileAttrU) : FilePermissionsU :=
  { mode := a.st_mode }

/-- `FileAttr::created` on Unix for the platforms without a birth-time field
(the `#[cfg(not(any(bitrig, freebsd, openbsd, macos, ios)))]` branch,
lines 328-332): unconditionally an `ErrorKind::Other` error. -/
def FileAttrU.created (_ : FileAttrU) : Except IoError SystemTimeU :=
  Except.error (IoError.newError ErrorKind.other
    "creation time is not available on this platform currently")

/-! ## Unix directory entries: the `d_type` hint (`DirEntry::file_type`) -/

def DT_FIFO : Nat := 1
def DT_CHR : Nat := 2
def DT_DIR : Nat := 4
def DT_BLK : Nat := 6
def DT_REG : Nat := 8
def DT_LNK : Nat := 10
def DT_SOCK : Nat := 12

/-- Unix `DirEntry`, restricted to the field `DirEntry::file_type` consults.
The Rust struct (lines 211-220) holds `entry: dirent64` and `root`; it has
no field that could cache a previously computed file type, and
`file_type(&self)` takes an immutable borrow, so each invocation is a pure
function of the entry (plus the outcome of the native metadata call). -/
structure DirEntryU where
  d_type : Nat
  deriving DecidableEq, Repr

/-- `DirEntry::file_type` on Unix (lines 466-478).  The `native` argument is
the outcome of `Fs::symlink_metadata(&self.path())`; the second component of
the result counts how many such metadata queries this single invocation
issues (`0` when the inline `d_type` hint is recognized, `1` otherwise). -/
def DirEntryU.file_type (e : DirEntryU) (native : Except IoError FileAttrU) :
    Except IoError FileTypeU × Nat :=
  if e.d_type = DT_CHR then (Except.ok { mode := S_IFCHR }, 0)
  else if e.d_type = DT_FIFO then (Except.ok { mode := S_IFIFO }, 0)
  else if e.d_type = DT_LNK then (Except.ok { mode := S_IFLNK }, 0)
  else if e.d_type = DT_REG then (Except.ok { mode := S_IFREG }, 0)
  else if e.d_type = DT_SOCK then (Except.ok { mode := S_IFSOCK }, 0)
  else if e.d_type = DT_DIR then (Except.ok { mode := S_IFDIR }, 0)
  else if e.d_type = DT_BLK then (Except.ok { mode := S_IFBLK }, 0)
  else (native.map FileAttrU.fileType, 1)

/-- Whether a `d_type` value is one of the seven discriminators the Unix
`DirEntry::file_type` accepts inline. -/
def dTypeRecognized (d : Nat) : Bool :=
  d = DT_CHR || d = DT_FIFO || d = DT_LNK || d = DT_REG ||
  d = DT_SOCK || d = DT_DIR || d = DT_BLK

/-- The `st_mode` kind bits the inline hint is translated to. -/
def dTypeHint (d : Nat) : Nat :=
  if d = DT_CHR then S_IFCHR
  else if d = DT_FIFO then S_IFIFO
  else if d = DT_LNK then S_IFLNK
  else if d = DT_REG then S_IFREG
  else if d = DT_SOCK then S_IFSOCK
  else if d = DT_DIR then S_IFDIR
  else S_IFBLK

/-! ## Windows file types -/

def FILE_ATTRIBUTE_DIRECTORY : Nat := 0x10
def FILE_ATTRIBUTE_REPARSE_POINT : Nat := 0x400
def IO_REPARSE_TAG_SYMLINK : Nat := 0xA000000C
def IO_REPARSE_TAG_MOUNT_POINT : Nat := 0xA0000003

/-- Windows `FileType` (lines 194-197). -/
inductive WinFileType where
  | dirT
  | fileT
  | symlinkFileT
  | symlinkDirT
  | reparsePointT
  | mountPointT
  deriving DecidableEq, Repr

/-- `FileType::new` on Windows (lines 713-727): classification from the
directory attribute bit, the reparse-point attribute bit and the reparse
tag, with match arms in source order. -/
def winFileTypeNew (attrs reparse_tag : Nat) : WinFileType :=
  match decide (attrs &&& FILE_ATTRIBUTE_DIRECTORY ≠ 0),
        decide (attrs &&& FILE_ATTRIBUTE_REPARSE_POINT ≠ 0) with
  | false, false => WinFileType.fileT
  | true,  false => WinFileType.dirT
  | false, true  =>
    if reparse_tag = IO_REPARSE_TAG_SYMLINK then WinFileType.symlinkFileT
    else WinFileType.reparsePointT
  | true,  true  =>
    if reparse_tag = IO_REPARSE_TAG_SYMLINK then WinFileType.symlinkDirT
    else if reparse_tag = IO_REPARSE_TAG_MOUNT_POINT then WinFileType.mountPointT
    else WinFileType.reparsePointT

/-- `FileTypePal::is_dir` on Windows (lines 697-699). -/
def WinFileType.is_dir (t : WinFileType) : Bool := t = WinFileType.dirT

/-- `FileTypePal::is_file` on Windows (lines 701-703). -/
def WinFileType.is_file (t : WinFileType) : Bool := t = WinFileType.fileT

/-- `FileTypePal::is_symlink` on Windows (lines 705-709). -/
def WinFileType.is_symlink (t : WinFileType) : Bool :=
  t = WinFileType.symlinkFileT || t = WinFileType.symlinkDirT ||
  t = WinFileType.mountPointT

/-- `FileType::is_symlink_dir` on Windows (lines 729-731). -/
def WinFileType.is_symlink_dir (t : WinFileType) : Bool :=
  t = WinFileType.symlinkDirT || t = WinFileType.mountPointT

/-- Windows `FileAttr`, restricted to the fields the claims touch
(lines 184-192). -/
structure FileAttrW where
  attributes : Nat
  reparse_tag : Nat
  deriving DecidableEq, Repr

/-- `MetadataPal::file_type` on Windows (lines 647-649). -/
def FileAttrW.fileType (a : FileAttrW) : WinFileType :=
  winFileTypeNew a.attributes a.reparse_tag

/-! ## Directory enumeration (`ReadDir` / `DirEntry::new`)

The native stream is modelled as the list of raw entry names the OS hands
back, in order; bytes (Unix `d_name`) and UTF-16 units (Windows
`cFileName`) are modelled as `Nat`. -/

/-- Whether a Unix entry name is the self or parent pseudo-entry:
`name_bytes() == b"."` or `b".."` (byte 46 is `'.'`). -/
def pseudoNameU (n : List Nat) : Bool :=
  n = [46] || n = [46, 46]

/-- `ReadDir::next` on Unix (lines 422-443): repeatedly pull the next
native entry; yield it unless its name is `"."` or `".."`, in which case
keep looping.  Returns the yielded name and the remaining stream. -/
def unixReadDirNext : List (List Nat) → Option (List Nat × List (List Nat))
  | [] => none
  | n :: rest =>
    if n ≠ [46] ∧ n ≠ [46, 46] then some (n, rest)
    else unixReadDirNext rest

/-- `truncate_utf16_at_nul`: the entry name is the `cFileName` units up to
the first NUL. -/
def truncAtNul (l : List Nat) : List Nat :=
  l.takeWhile (fun c => c ≠ 0)

/-- `DirEntry::new` on Windows (lines 339-352), fused with `file_name()`:
the slice pattern match on `&wfd.cFileName[0..3]` rejects `"."`
(`[46, 0, ..]`) and `".."` (`[46, 46, 0, ..]`); any other entry is kept and
its name is `cFileName` truncated at the first NUL.  `cFileName` is a
260-element array, so the list always has at least three elements; the
catch-all `none` for shorter lists is unreachable. -/
def winDirEntryNew (cFileName : List Nat) : Option (List Nat) :=
  match cFileName with
  | c0 :: c1 :: c2 :: rest =>
    if c0 = 46 ∧ c1 = 0 then none
    else if c0 = 46 ∧ c1 = 46 ∧ c2 = 0 then none
    else some (truncAtNul (c0 :: c1 :: c2 :: rest))
  | _ => none

/-- The `FindNextFileW` loop of `ReadDir::next` on Windows (lines 281-295):
pull raw find-data records until `DirEntry::new` accepts one. -/
def winNextLoop : List (List Nat) → Option (List Nat × List (List Nat))
  | [] => none
  | w :: ws =>
    match winDirEntryNew w with
    | some e => some (e, ws)
    | none => winNextLoop ws

/-- Windows `ReadDir` state: the buffered first find-data record from
`FindFirstFileW` (lines 199-203) plus the remaining native stream. -/
structure WinReadDirM where
  first : Option (List Nat)
  rest : List (List Nat)
  deriving DecidableEq, Repr

/-- `ReadDir::next` on Windows (lines 275-296): consume the buffered first
record if present (skipping it when `DirEntry::new` rejects it), then the
`FindNextFileW` loop. -/
def winReadDirNext (r : WinReadDirM) : Option (List Nat × WinReadDirM) :=
  match r.first with
  | some f =>
    match winDirEntryNew f with
    | some e => some (e, { first := none, rest := r.rest })
    | none =>
      (winNextLoop r.rest).map (fun x => (x.1, { first := none, rest := x.2 }))
  | none =>
    (winNextLoop r.rest).map (fun x => (x.1, { first := none, rest := x.2 }))

/-! ## read_link -/

/-- The `readlink(2)` buffer loop of `Fs::read_link` on Unix
(lines 101-125): starting from a 256-byte buffer, read up to `cap` bytes of
the stored target; if the read filled the buffer exactly, grow it
(`Vec::reserve(1)` at `len == capacity` doubles the capacity, and in any
case guarantees at least one more byte) and retry; otherwise the target fit
and is returned whole. -/
def readLinkLoopU (target : List Nat) (cap : Nat) : List Nat :=
  if h : (target.take cap).length ≠ cap then target.take cap
  else readLinkLoopU target (max (2 * cap) (cap + 1))
termination_by target.length + 1 - cap
decreasing_by
  rw [List.length_take] at h
  omega

/-- `Fs::read_link` on Unix: run the loop with the initial capacity 256. -/
def unixReadLink (target : List Nat) : List Nat :=
  readLinkLoopU target 256

def SYMLINK_FLAG_RELATIVE : Nat := 1

/-- The NT internal namespace prefix `\??\` as UTF-16 units. -/
def ntNamespace : List Nat := [92, 63, 63, 92]

/-- `SYMBOLIC_LINK_REPARSE_BUFFER`: substitute-name offset and length are
in bytes; `pathBuffer` holds UTF-16 units. -/
structure SymlinkReparseBuffer where
  substituteNameOffset : Nat
  substituteNameLength : Nat
  flags : Nat
  pathBuffer : List Nat
  deriving DecidableEq, Repr

/-- `MOUNT_POINT_REPARSE_BUFFER`. -/
structure MountPointReparseBuffer where
  substituteNameOffset : Nat
  substituteNameLength : Nat
  pathBuffer : List Nat
  deriving DecidableEq, Repr

/-- The decoded payload of `FSCTL_GET_REPARSE_POINT`, discriminated by
`ReparseTag`. -/
inductive ReparseData where
  | symlinkData (b : SymlinkReparseBuffer)
  | mountPointData (b : MountPointReparseBuffer)
  | otherData (tag : Nat)
  deriving DecidableEq, Repr

/-- The substitute-name slice: `PathBuffer` offset by
`SubstituteNameOffset / 2` units, `SubstituteNameLength / 2` units long. -/
def substName (pathBuffer : List Nat) (off len : Nat) : List Nat :=
  (pathBuffer.drop (off / 2)).take (len / 2)

/-- `File::readlink` on Windows (lines 592-625): decode the reparse payload
by tag (unknown tags fail with an `Other` error); for a non-relative
target, strip a leading `\??\` internal-namespace prefix. -/
def winReadlink (d : ReparseData) : Except IoError (List Nat) :=
  match d with
  | ReparseData.symlinkData b =>
    let subst := substName b.pathBuffer b.substituteNameOffset b.substituteNameLength
    let relative := !(b.flags &&& SYMLINK_FLAG_RELATIVE == 0)
    if !relative && ntNamespace.isPrefixOf subst then Except.ok (subst.drop 4)
    else Except.ok subst
  | ReparseData.mountPointData b =>
    let subst := substName b.pathBuffer b.substituteNameOffset b.substituteNameLength
    if ntNamespace.isPrefixOf subst then Except.ok (subst.drop 4)
    else Except.ok subst
  | ReparseData.otherData _ =>
    Except.error (IoError.newError ErrorKind.other "Unsupported reparse point type")

/-- The prefix-stripping step of `winReadlink`, as applied to a
non-relative substitute name. -/
def stripNtNamespace (s : List Nat) : List Nat :=
  if ntNamespace.isPrefixOf s then s.drop 4 else s

/-! ## copy -/

/-- Modelled from the spec: `Path::is_file` (libstd/fs.rs, not under the
provided sources) queries `fs::metadata(path)` and reports whether it
succeeded with a regular-file type; a stat failure or any non-regular type
yields `false`. -/
def pathIsFile (stat : Except IoError FileAttrU) : Bool :=
  match stat with
  | Except.ok a => a.fileType.is_file
  | Except.error _ => false

/-- Whether a Unix file type is one of the POSIX special-file kinds
(character device, block device, FIFO, socket). -/
def FileTypeU.isSpecial (t : FileTypeU) : Bool :=
  t.isKind S_IFCHR || t.isKind S_IFBLK || t.isKind S_IFIFO || t.isKind S_IFSOCK

/-- The outcome of a `copy` call: its `io::Result<u64>` together with
whether the destination-creating call (`File::create(to)` on Unix, the
native bulk copy on Windows) was ever issued. -/
structure CopyOutcome where
  result : Except IoError Nat
  destTouched : Bool
  deriving DecidableEq, Repr

/-- The native-call outcomes `Fs::copy` on Unix can observe, in the order
the code issues them: `fs::metadata(from)` (via `from.is_file()`),
`File::open(from)`, `File::create(to)`, `reader.metadata()`,
`io::copy`, `set_permissions(to, perm)`. -/
structure CopyEnvU where
  fromStat : Except IoError FileAttrU
  openFrom : Except IoError Unit
  createTo : Except IoError Unit
  readerMeta : Except IoError FileAttrU
  ioCopy : Except IoError Nat
  setPerm : Except IoError Unit
  deriving Repr

/-- `Fs::copy` on Unix (lines 71-85): reject a non-regular source with a
constructed `InvalidInput` error before anything else; then open the
reader, create the writer, read the source permissions, copy the bytes and
re-apply the permissions, propagating the first failure. -/
def unixCopy (env : CopyEnvU) : CopyOutcome :=
  if !pathIsFile env.fromStat then
    { result := Except.error (IoError.newError ErrorKind.invalidInput
        "the source path is not an existing regular file"),
      destTouched := false }
  else
    match env.openFrom with
    | Except.error e => { result := Except.error e, destTouched := false }
    | Except.ok _ =>
      match env.createTo with
      | Except.error e => { result := Except.error e, destTouched := true }
      | Except.ok _ =>
        match env.readerMeta with
        | Except.error e => { result := Except.error e, destTouched := true }
        | Except.ok _ =>
          match env.ioCopy with
          | Except.error e => { result := Except.error e, destTouched := true }
          | Except.ok n =>
            match env.setPerm with
            | Except.error e => { result := Except.error e, destTouched := true }
            | Except.ok _ => { result := Except.ok n, destTouched := true }

/-- `Fs::copy` on Windows (lines 76-99): convert the two paths and hand
them straight to `CopyFileExW`.  The source's metadata (`sourceMeta`) is
never inspected — no validation of any kind happens before the native bulk
copy — so the outcome is exactly whatever the native primitive does. -/
def windowsCopy (_sourceMeta : Except IoError FileAttrW)
    (native : CopyOutcome) : CopyOutcome :=
  native

/-! ## remove_dir_all over an abstract directory tree

The filesystem as the syscalls observe it is modelled as a finite tree: a
node's kind is what `symlink_metadata(path).file_type()` resp. the
enumeration's type hint reports for that path, and a node's forest holds
the children that a `read_dir` on it would enumerate.  For a symlink node,
the forest models the contents of the link's TARGET — a correct recursive
deletion must never reach into it.  The walk itself is the code's: the Lean
functions return the list of filesystem operations the walk issues, in
order. -/

mutual
inductive FsTree (κ : Type) where
  | node : κ → FsForest κ → FsTree κ
inductive FsForest (κ : Type) where
  | nil : FsForest κ
  | cons : String → FsTree κ → FsForest κ → FsForest κ
end

def FsTree.kind {κ : Type} : FsTree κ → κ
  | FsTree.node k _ => k

def FsTree.children {κ : Type} : FsTree κ → FsForest κ
  | FsTree.node _ f => f

/-- Find the child of the given name (directories have unique names; the
first match is taken). -/
def forestLookup {κ : Type} : FsForest κ → String → Option (FsTree κ)
  | FsForest.nil, _ => none
  | FsForest.cons m c rest, n => if m = n then some c else forestLookup rest n

/-- The subtree at a path below a node, descending through children of any
kind. -/
def nodeAt {κ : Type} : FsTree κ → List String → Option (FsTree κ)
  | t, [] => some t
  | t, n :: q =>
    match forestLookup t.children n with
    | some c => nodeAt c q
    | none => none

def forestNames {κ : Type} : FsForest κ → List String
  | FsForest.nil => []
  | FsForest.cons n _ rest => n :: forestNames rest

mutual
/-- Well-formedness of a snapshot: sibling names are distinct at every
level (as in a real directory). -/
def treeWf {κ : Type} : FsTree κ → Bool
  | FsTree.node _ f => decide (forestNames f).Nodup && forestWf f
def forestWf {κ : Type} : FsForest κ → Bool
  | FsForest.nil => true
  | FsForest.cons _ c rest => treeWf c && forestWf rest
end

/-- A filesystem operation issued by the recursive deletion walk. -/
inductive FsOp where
  | removeFile : List String → FsOp
  | removeDir : List String → FsOp
  | readDir : List String → FsOp
  deriving DecidableEq, Repr

def FsOp.path : FsOp → List String
  | FsOp.removeFile p => p
  | FsOp.removeDir p => p
  | FsOp.readDir p => p

mutual
/-- `remove_dir_all_recursive` on Unix (lines 814-824): enumerate the
children; recurse into a child whose `file_type()` is a directory, remove
any other child (symlinks included) with `remove_file`; finally remove the
now-empty directory.  Node kinds are the `mode_t` type bits the entry's
`file_type()` reports. -/
def removeDirAllRecU : List String → FsTree Nat → List FsOp
  | p, FsTree.node _ f =>
    FsOp.readDir p :: (remChildrenU p f ++ [FsOp.removeDir p])
def remChildrenU : List String → FsForest Nat → List FsOp
  | _, FsForest.nil => []
  | p, FsForest.cons n c rest =>
    (if (FileTypeU.mk c.kind).is_dir then removeDirAllRecU (p ++ [n]) c
     else [FsOp.removeFile (p ++ [n])]) ++ remChildrenU p rest
end

/-- `Fs::remove_dir_all` on Unix (lines 147-154): if the path's
`symlink_metadata` file type is a symlink, remove only the link with
`remove_file`; otherwise run the recursive walk. -/
def removeDirAllU (p : List String) (t : FsTree Nat) : List FsOp :=
  if (FileTypeU.mk t.kind).is_symlink then [FsOp.removeFile p]
  else removeDirAllRecU p t

mutual
/-- `remove_dir_all_recursive` on Windows (lines 734-747): recurse into a
real directory child; remove a symlinked-directory child (symlink-dir or
junction) with `remove_dir` — only the link; remove any other child with
`remove_file`.  Node kinds are the (attributes, reparse tag) pair
`FileType::new` classifies. -/
def removeDirAllRecW : List String → FsTree (Nat × Nat) → List FsOp
  | p, FsTree.node _ f =>
    FsOp.readDir p :: (remChildrenW p f ++ [FsOp.removeDir p])
def remChildrenW : List String → FsForest (Nat × Nat) → List FsOp
  | _, FsForest.nil => []
  | p, FsForest.cons n c rest =>
    (if (winFileTypeNew c.kind.1 c.kind.2).is_dir then
       removeDirAllRecW (p ++ [n]) c
     else if (winFileTypeNew c.kind.1 c.kind.2).is_symlink_dir then
       [FsOp.removeDir (p ++ [n])]
     else [FsOp.removeFile (p ++ [n])]) ++ remChildrenW p rest
end

/-- `Fs::remove_dir_all` on Windows (lines 142-151): a symlink path is
removed with `remove_dir` (only the link); otherwise the recursive walk
runs. -/
def removeDirAllW (p : List String) (t : FsTree (Nat × Nat)) : List FsOp :=
  if (winFileTypeNew t.kind.1 t.kind.2).is_symlink then [FsOp.removeDir p]
  else removeDirAllRecW p t

/-! ### Every operation of the walk stays below the starting path -/

mutual
theorem remRecU_root_pref (p : List String) (t : FsTree Nat) :
    ∀ op ∈ removeDirAllRecU p t, p <+: op.path := by
  match t with
  | FsTree.node k f =>
    intro op h
    rw [removeDirAllRecU] at h
    rcases List.mem_cons.mp h with rfl | h
    · exact List.prefix_refl p
    · rcases List.mem_append.mp h with h | h
      · rcases remChildU_name_pref p f op h with ⟨m, _hm, hpre⟩
        exact List.IsPrefix.trans ⟨[m], rfl⟩ hpre
      · rcases List.mem_singleton.mp h with rfl
        exact List.prefix_refl p
theorem remChildU_name_pref (p : List String) (f : FsForest Nat) :
    ∀ op ∈ remChildrenU p f, ∃ m, m ∈ forestNames f ∧ (p ++ [m]) <+: op.path := by
  match f with
  | FsForest.nil =>
    intro op h
    rw [remChildrenU] at h
    exact absurd h (List.not_mem_nil op)
  | FsForest.cons n c rest =>
    intro op h
    rw [remChildrenU] at h
    rcases List.mem_append.mp h with h | h
    · refine ⟨n, List.mem_cons_self n _, ?_⟩
      split at h
      · exact remRecU_root_pref (p ++ [n]) c op h
      · rcases List.mem_singleton.mp h with rfl
        exact List.prefix_refl _
    · rcases remChildU_name_pref p rest op h with ⟨m, hm, hpre⟩
      exact ⟨m, List.mem_cons_of_mem _ hm, hpre⟩
end

mutual
theorem remRecW_root_pref (p : List String) (t : FsTree (Nat × Nat)) :
    ∀ op ∈ removeDirAllRecW p t, p <+: op.path := by
  match t with
  | FsTree.node k f =>
    intro op h
    rw [removeDirAllRecW] at h
    rcases List.mem_cons.mp h with rfl | h
    · exact List.prefix_refl p
    · rcases List.mem_append.mp h with h | h
      · rcases remChildW_name_pref p f op h with ⟨m, _hm, hpre⟩
        exact List.IsPrefix.trans ⟨[m], rfl⟩ hpre
      · rcases List.mem_singleton.mp h with rfl
        exact List.prefix_refl p
theorem remChildW_name_pref (p : List String) (f : FsForest (Nat × Nat)) :
    ∀ op ∈ remChildrenW p f, ∃ m, m ∈ forestNames f ∧ (p ++ [m]) <+: op.path := by
  match f with
  | FsForest.nil =>
    intro op h
    rw [remChildrenW] at h
    exact absurd h (List.not_mem_nil op)
  | FsForest.cons n c rest =>
    intro op h
    rw [remChildrenW] at h
    rcases List.mem_append.mp h with h | h
    · refine ⟨n, List.mem_cons_self n _, ?_⟩
      split at h
      · exact remRecW_root_pref (p ++ [n]) c op h
      · split at h
        · rcases List.mem_singleton.mp h with rfl
          exact List.prefix_refl _
        · rcases List.mem_singleton.mp h with rfl
          exact List.prefix_refl _
    · rcases remChildW_name_pref p rest op h with ⟨m, hm, hpre⟩
      exact ⟨m, List.mem_cons_of_mem _ hm, hpre⟩
end

/-! ### Symlink nodes are never descended into -/

theorem uKind_symlink_not_dir {k : Nat}
    (h : (FileTypeU.mk k).is_symlink = true) : (FileTypeU.mk k).is_dir = false := by
  rw [FileTypeU.is_symlink, FileTypeU.isKind, beq_iff_eq] at h
  rw [FileTypeU.is_dir, FileTypeU.isKind, h]
  decide

theorem wType_symlink_not_dir {t : WinFileType}
    (h : t.is_symlink = true) : t.is_dir = false := by
  revert h
  cases t <;> decide

theorem not_pref_app_self {p q : List String} (hq : q ≠ []) : ¬ (p ++ q <+: p) := by
  intro h
  have hlen := List.IsPrefix.length_le h
  rw [List.length_append] at hlen
  exact hq (List.eq_nil_of_length_eq_zero (by omega))

theorem names_eq_of_prefs {p r : List String} {m n : String}
    (h1 : p ++ [m] <+: r) (h2 : p ++ [n] <+: r) : m = n := by
  have hmn := List.prefix_of_prefix_length_le h1 h2 (by simp)
  have heq : p ++ [m] = p ++ [n] := List.IsPrefix.eq_of_length hmn (by simp)
  have := List.append_cancel_left heq
  simpa using this

mutual
theorem remRecU_symlink_safe (p : List String) (t : FsTree Nat) :
    treeWf t = true →
    ∀ (q : List String) (s : FsTree Nat), nodeAt t q = some s →
      (FileTypeU.mk s.kind).is_symlink = true → q ≠ [] →
      ∀ op ∈ removeDirAllRecU p t, p ++ q <+: op.path →
        op = FsOp.removeFile (p ++ q) := by
  match t with
  | FsTree.node k f =>
    intro hwf q s hq hsym hqne op hop hpre
    rw [treeWf, Bool.and_eq_true, decide_eq_true_eq] at hwf
    obtain ⟨hnd, hfwf⟩ := hwf
    match q, hqne with
    | n :: q', _ =>
      rw [nodeAt] at hq
      cases hlk : forestLookup (FsTree.node k f).children n with
      | none =>
        rw [hlk] at hq
        exact absurd hq (by simp)
      | some c =>
        rw [hlk] at hq
        rw [removeDirAllRecU] at hop
        rcases List.mem_cons.mp hop with rfl | hop
        · exact absurd hpre (not_pref_app_self (by simp))
        · rcases List.mem_append.mp hop with hop | hop
          · exact remChildU_symlink_safe p f hnd hfwf n q' c s hlk hq hsym op hop hpre
          · rcases List.mem_singleton.mp hop with rfl
            exact absurd hpre (not_pref_app_self (by simp))
theorem remChildU_symlink_safe (p : List String) (f : FsForest Nat) :
    (forestNames f).Nodup → forestWf f = true →
    ∀ (n : String) (q' : List String) (c s : FsTree Nat),
      forestLookup f n = some c → nodeAt c q' = some s →
      (FileTypeU.mk s.kind).is_symlink = true →
      ∀ op ∈ remChildrenU p f, p ++ n :: q' <+: op.path →
        op = FsOp.removeFile (p ++ n :: q') := by
  match f with
  | FsForest.nil =>
    intro _ _ n q' c s hlk
    rw [forestLookup] at hlk
    exact absurd hlk (by simp)
  | FsForest.cons m c0 rest =>
    intro hnd hfwf n q' c s hlk hq hsym op hop hpre
    rw [forestWf, Bool.and_eq_true] at hfwf
    obtain ⟨hcwf, hrwf⟩ := hfwf
    rw [forestLookup] at hlk
    rw [remChildrenU] at hop
    by_cases hmn : m = n
    · subst hmn
      rw [if_pos rfl] at hlk
      injection hlk with hc
      subst hc
      rcases List.mem_append.mp hop with hop | hop
      · split at hop
        · next hdir =>
          cases q' with
          | nil =>
            rw [nodeAt] at hq
            injection hq with hs
            subst hs
            rw [uKind_symlink_not_dir hsym] at hdir
            exact absurd hdir Bool.false_ne_true
          | cons x xs =>
            have hres := remRecU_symlink_safe (p ++ [m]) c0 hcwf (x :: xs) s hq
              hsym (by simp) op hop (by rw [← List.append_cons]; exact hpre)
            rw [hres, ← List.append_cons]
        · next hdir =>
          rcases List.mem_singleton.mp hop with rfl
          have hlen := List.IsPrefix.length_le hpre
          simp [FsOp.path] at hlen
          subst hlen
          rfl
      · rcases remChildU_name_pref p rest op hop with ⟨m', hm', hpre'⟩
        have hp2 : p ++ [m] <+: op.path :=
          List.IsPrefix.trans ⟨q', by simp⟩ hpre
        have heq : m' = m := names_eq_of_prefs hpre' hp2
        rw [forestNames] at hnd
        have hnin := (List.nodup_cons.mp hnd).1
        exact absurd (heq ▸ hm') hnin
    · rw [if_neg hmn] at hlk
      rcases List.mem_append.mp hop with hop | hop
      · have hp1 : p ++ [m] <+: op.path := by
          split at hop
          · exact remRecU_root_pref (p ++ [m]) c0 op hop
          · rcases List.mem_singleton.mp hop with rfl
            exact List.prefix_refl _
        have hp2 : p ++ [n] <+: op.path :=
          List.IsPrefix.trans ⟨q', by simp⟩ hpre
        exact absurd (names_eq_of_prefs hp1 hp2) hmn
      · rw [forestNames] at hnd
        exact remChildU_symlink_safe p rest (List.nodup_cons.mp hnd).2 hrwf
          n q' c s hlk hq hsym op hop hpre
end

mutual
theorem remRecW_symlink_safe (p : List String) (t : FsTree (Nat × Nat)) :
    treeWf t = true →
    ∀ (q : List String) (s : FsTree (Nat × Nat)), nodeAt t q = some s →
      (winFileTypeNew s.kind.1 s.kind.2).is_symlink = true → q ≠ [] →
      ∀ op ∈ removeDirAllRecW p t, p ++ q <+: op.path →
        op = FsOp.removeDir (p ++ q) ∨ op = FsOp.removeFile (p ++ q) := by
  match t with
  | FsTree.node k f =>
    intro hwf q s hq hsym hqne op hop hpre
    rw [treeWf, Bool.and_eq_true, decide_eq_true_eq] at hwf
    obtain ⟨hnd, hfwf⟩ := hwf
    match q, hqne with
    | n :: q', _ =>
      rw [nodeAt] at hq
      cases hlk : forestLookup (FsTree.node k f).children n with
      | none =>
        rw [hlk] at hq
        exact absurd hq (by simp)
      | some c =>
        rw [hlk] at hq
        rw [removeDirAllRecW] at hop
        rcases List.mem_cons.mp hop with rfl | hop
        · exact absurd hpre (not_pref_app_self (by simp))
        · rcases List.mem_append.mp hop with hop | hop
          · exact remChildW_symlink_safe p f hnd hfwf n q' c s hlk hq hsym op hop hpre
          · rcases List.mem_singleton.mp hop with rfl
            exact absurd hpre (not_pref_app_self (by simp))
theorem remChildW_symlink_safe (p : List String) (f : FsForest (Nat × Nat)) :
    (forestNames f).Nodup → forestWf f = true →
    ∀ (n : String) (q' : List String) (c s : FsTree (Nat × Nat)),
      forestLookup f n = some c → nodeAt c q' = some s →
      (winFileTypeNew s.kind.1 s.kind.2).is_symlink = true →
      ∀ op ∈ remChildrenW p f, p ++ n :: q' <+: op.path →
        op = FsOp.removeDir (p ++ n :: q') ∨ op = FsOp.removeFile (p ++ n :: q') := by
  match f with
  | FsForest.nil =>
    intro _ _ n q' c s hlk
    rw [forestLookup] at hlk
    exact absurd hlk (by simp)
  | FsForest.cons m c0 rest =>
    intro hnd hfwf n q' c s hlk hq hsym op hop hpre
    rw [forestWf, Bool.and_eq_true] at hfwf
    obtain ⟨hcwf, hrwf⟩ := hfwf
    rw [forestLookup] at hlk
    rw [remChildrenW] at hop
    by_cases hmn : m = n
    · subst hmn
      rw [if_pos rfl] at hlk
      injection hlk with hc
      subst hc
      rcases List.mem_append.mp hop with hop | hop
      · split at hop
        · next hdir =>
          cases q' with
          | nil =>
            rw [nodeAt] at hq
            injection hq with hs
            subst hs
            rw [wType_symlink_not_dir hsym] at hdir
            exact absurd hdir Bool.false_ne_true
          | cons x xs =>
            have hres := remRecW_symlink_safe (p ++ [m]) c0 hcwf (x :: xs) s hq
              hsym (by simp) op hop (by rw [← List.append_cons]; exact hpre)
            rcases hres with hres | hres
            · left
              rw [hres, ← List.append_cons]
            · right
              rw [hres, ← List.append_cons]
        · split at hop
          · next hsld =>
            rcases List.mem_singleton.mp hop with rfl
            have hlen := List.IsPrefix.length_le hpre
            simp [FsOp.path] at hlen
            subst hlen
            left
            rfl
          · next hsld =>
            rcases List.mem_singleton.mp hop with rfl
            have hlen := List.IsPrefix.length_le hpre
            simp [FsOp.path] at hlen
            subst hlen
            right
            rfl
      · rcases remChildW_name_pref p rest op hop with ⟨m', hm', hpre'⟩
        have hp2 : p ++ [m] <+: op.path :=
          List.IsPrefix.trans ⟨q', by simp⟩ hpre
        have heq : m' = m := names_eq_of_prefs hpre' hp2
        rw [forestNames] at hnd
        have hnin := (List.nodup_cons.mp hnd).1
        exact absurd (heq ▸ hm') hnin
    · rw [if_neg hmn] at hlk
      rcases List.mem_append.mp hop with hop | hop
      · have hp1 : p ++ [m] <+: op.path := by
          split at hop
          · exact remRecW_root_pref (p ++ [m]) c0 op hop
          · split at hop
            · rcases List.mem_singleton.mp hop with rfl
              exact List.prefix_refl _
            · rcases List.mem_singleton.mp hop with rfl
              exact List.prefix_refl _
        have hp2 : p ++ [n] <+: op.path :=
          List.IsPrefix.trans ⟨q', by simp⟩ hpre
        exact absurd (names_eq_of_prefs hp1 hp2) hmn
      · rw [forestNames] at hnd
        exact remChildW_symlink_safe p rest (List.nodup_cons.mp hnd).2 hrwf
          n q' c s hlk hq hsym op hop hpre
end

end PalFs

namespace PalFs

/-! ## Bit-level helper lemmas for 32-bit masking -/

theorem testBit_lt32 {mask i : Nat} (hm : mask < 2 ^ 32)
    (h : Nat.testBit mask i = true) : i < 32 := by
  by_contra hi
  push_neg at hi
  have hlt : mask < 2 ^ i :=
    lt_of_lt_of_le hm (Nat.pow_le_pow_right (by norm_num) hi)
  rw [Nat.testBit_lt_two_pow hlt] at h
  exact Bool.false_ne_true h

theorem testBit_not32 (mask i : Nat) :
    Nat.testBit (not32 mask) i = (decide (i < 32)).xor (Nat.testBit mask i) := by
  rw [not32, Nat.testBit_xor, Nat.testBit_two_pow_sub_one]

theorem testBit_not32_and_self {mask : Nat} (hm : mask < 2 ^ 32) (i : Nat) :
    (Nat.testBit (not32 mask) i && Nat.testBit mask i) = false := by
  by_cases h : Nat.testBit mask i = true
  · have hi : i < 32 := testBit_lt32 hm h
    rw [testBit_not32]
    simp [h, hi]
  · have h' : Nat.testBit mask i = false := by simpa using h
    simp [h']

theorem land_not32_mask_zero {mask : Nat} (hm : mask < 2 ^ 32) (m : Nat) :
    (m &&& not32 mask) &&& mask = 0 := by
  apply Nat.eq_of_testBit_eq
  intro i
  simp only [Nat.testBit_and, Nat.zero_testBit, Bool.and_assoc]
  rw [testBit_not32_and_self hm i]
  simp

theorem land_not32_idem (m mask : Nat) :
    (m &&& not32 mask) &&& not32 mask = m &&& not32 mask := by
  apply Nat.eq_of_testBit_eq
  intro i
  simp only [Nat.testBit_and, Bool.and_assoc, Bool.and_self]

theorem lor_mask_land_not32 {mask : Nat} (hm : mask < 2 ^ 32) (m : Nat) :
    (m ||| mask) &&& not32 mask = m &&& not32 mask := by
  apply Nat.eq_of_testBit_eq
  intro i
  simp only [Nat.testBit_and, Nat.testBit_or]
  by_cases h : Nat.testBit mask i = true
  · have hi : i < 32 := testBit_lt32 hm h
    rw [testBit_not32]
    simp [h, hi]
  · have h' : Nat.testBit mask i = false := by simpa using h
    simp [h']

theorem ne_zero_of_testBit {m i : Nat} (h : Nat.testBit m i = true) : m ≠ 0 := by
  intro h0
  rw [h0, Nat.zero_testBit] at h
  exact Bool.false_ne_true h

/-- The write-permission mask `0o222` sets exactly bits 1, 4 and 7. -/
theorem testBit_0o222 (i : Nat) :
    Nat.testBit 0o222 i = true ↔ (i = 1 ∨ i = 4 ∨ i = 7) := by
  constructor
  · intro h
    have hi : i < 8 := by
      by_contra hge
      push_neg at hge
      have hlt : (0o222 : Nat) < 2 ^ i :=
        lt_of_lt_of_le (by norm_num) (Nat.pow_le_pow_right (by norm_num) hge)
      rw [Nat.testBit_lt_two_pow hlt] at h
      exact Bool.false_ne_true h
    interval_cases i <;> revert h <;> decide
  · rintro (rfl | rfl | rfl) <;> decide

end PalFs

namespace PalFs

/-! ## Claim theorems for the open-flags compiler -/

/-- Claim C2: with no backend-specific access-mode override, access-mode
resolution is a pure function of the three booleans (read, write, append):
(T,F,F) is read-only, (F,T,F) write-only, (T,T,F) read-write, (F,*,T)
write-only+append, (T,*,T) read-write+append, and (F,F,F) fails with the
invalid-argument error (`EINVAL` resp. `ERROR_INVALID_PARAMETER`) before any
native call is issued, on both backends. -/
theorem c2_access_mode_table :
    ∀ (r w a t c cn : Bool),
      ((mkOptsU r w a t c cn).get_access_mode =
        match r, w, a with
        | true,  false, false => Except.ok O_RDONLY
        | false, true,  false => Except.ok O_WRONLY
        | true,  true,  false => Except.ok O_RDWR
        | false, _,     true  => Except.ok (O_WRONLY ||| O_APPEND)
        | true,  _,     true  => Except.ok (O_RDWR ||| O_APPEND)
        | false, false, false => Except.error (IoError.fromRawOsError EINVAL)) ∧
      ((mkOptsW r w a t c cn).get_access_mode =
        match r, w, a with
        | true,  false, false => Except.ok GENERIC_READ
        | false, true,  false => Except.ok GENERIC_WRITE
        | true,  true,  false => Except.ok (GENERIC_READ ||| GENERIC_WRITE)
        | false, _,     true  => Except.ok (FILE_GENERIC_WRITE &&& not32 FILE_WRITE_DATA)
        | true,  _,     true  =>
          Except.ok (GENERIC_READ ||| (FILE_GENERIC_WRITE &&& not32 FILE_WRITE_DATA))
        | false, false, false =>
          Except.error (IoError.fromRawOsError ERROR_INVALID_PARAMETER)) ∧
      (IoError.fromRawOsError EINVAL).kind = ErrorKind.invalidArgument ∧
      (IoError.fromRawOsError ERROR_INVALID_PARAMETER).kind = ErrorKind.invalidArgument := by
  decide

/-- Claim C3: creation-disposition resolution first validates (append
together with truncate is illegal unless create_new; write=false with
append=false forbids truncate, create and create_new — both failing with the
invalid-argument error), then maps (create, truncate, create_new) through
the disposition table, identically on both backends. -/
theorem c3_creation_mode_table :
    ∀ (r w a t c cn : Bool),
      ((mkOptsU r w a t c cn).get_creation_mode =
        if a && t && !cn then Except.error (IoError.fromRawOsError EINVAL)
        else if !w && !a && (t || c || cn) then
          Except.error (IoError.fromRawOsError EINVAL)
        else Except.ok (match c, t, cn with
          | false, false, false => 0
          | true,  false, false => O_CREAT
          | false, true,  false => O_TRUNC
          | true,  true,  false => O_CREAT ||| O_TRUNC
          | _,     _,     true  => O_CREAT ||| O_EXCL)) ∧
      ((mkOptsW r w a t c cn).get_creation_mode =
        if a && t && !cn then Except.error (IoError.fromRawOsError ERROR_INVALID_PARAMETER)
        else if !w && !a && (t || c || cn) then
          Except.error (IoError.fromRawOsError ERROR_INVALID_PARAMETER)
        else Except.ok (match c, t, cn with
          | false, false, false => OPEN_EXISTING
          | true,  false, false => OPEN_ALWAYS
          | false, true,  false => TRUNCATE_EXISTING
          | true,  true,  false => CREATE_ALWAYS
          | _,     _,     true  => CREATE_NEW)) ∧
      (IoError.fromRawOsError EINVAL).kind = ErrorKind.invalidArgument := by
  decide

/-- Claim C6: for every permission value and boolean `b`, `set_readonly b`
followed by `readonly()` yields `b`; all bits other than the write-permission
bits `0o222` (POSIX) resp. the read-only attribute flag (Windows) are
unchanged (stated as equality after masking with the 32-bit complement of
the touched mask); and `readonly()` is true exactly when no class has a
write bit (bits 1, 4, 7 all clear, POSIX) resp. when the attribute flag
(bit 0) is set (Windows). -/
theorem c6_permissions_readonly (m a : Nat) (b : Bool) :
    ((FilePermissionsU.mk m).set_readonly b).readonly = b ∧
    ((FilePermissionsU.mk m).set_readonly b).mode &&& not32 0o222 = m &&& not32 0o222 ∧
    ((FilePermissionsU.mk m).readonly = true ↔
      (Nat.testBit m 1 = false ∧ Nat.testBit m 4 = false ∧ Nat.testBit m 7 = false)) ∧
    ((FilePermissionsW.mk a).set_readonly b).readonly = b ∧
    ((FilePermissionsW.mk a).set_readonly b).attrs &&& not32 FILE_ATTRIBUTE_READONLY =
      a &&& not32 FILE_ATTRIBUTE_READONLY ∧
    ((FilePermissionsW.mk a).readonly = true ↔ Nat.testBit a 0 = true) := by
  have h222 : (0o222 : Nat) < 2 ^ 32 := by norm_num
  have h1lt : (FILE_ATTRIBUTE_READONLY : Nat) < 2 ^ 32 := by
    rw [FILE_ATTRIBUTE_READONLY]
    norm_num
  refine ⟨?_, ?_, ?_, ?_, ?_, ?_⟩
  · cases b with
    | true =>
      show ((m &&& not32 0o222) &&& 0o222 == 0) = true
      rw [land_not32_mask_zero h222]
      rfl
    | false =>
      show ((m ||| 0o222) &&& 0o222 == 0) = false
      have hb : Nat.testBit ((m ||| 0o222) &&& 0o222) 1 = true := by
        simp [Nat.testBit_and, Nat.testBit_or, show Nat.testBit 0o222 1 = true from by decide]
      exact beq_eq_false_iff_ne.mpr (ne_zero_of_testBit hb)
  · cases b with
    | true => exact land_not32_idem m 0o222
    | false => exact lor_mask_land_not32 h222 m
  · show (m &&& 0o222 == 0) = true ↔ _
    rw [beq_iff_eq]
    constructor
    · intro h
      have hb : ∀ i, Nat.testBit 0o222 i = true → Nat.testBit m i = false := by
        intro i hi
        have hz := congrArg (fun x => Nat.testBit x i) h
        simp only [Nat.testBit_and, Nat.zero_testBit] at hz
        rw [hi, Bool.and_true] at hz
        exact hz
      exact ⟨hb 1 (by decide), hb 4 (by decide), hb 7 (by decide)⟩
    · rintro ⟨h1, h4, h7⟩
      apply Nat.eq_of_testBit_eq
      intro i
      simp only [Nat.testBit_and, Nat.zero_testBit]
      by_cases h : Nat.testBit 0o222 i = true
      · rcases (testBit_0o222 i).mp h with rfl | rfl | rfl <;> simp [h1, h4, h7]
      · have h' : Nat.testBit 0o222 i = false := by simpa using h
        simp [h']
  · cases b with
    | true =>
      show (!((a ||| FILE_ATTRIBUTE_READONLY) &&& FILE_ATTRIBUTE_READONLY == 0)) = true
      have hb : Nat.testBit ((a ||| FILE_ATTRIBUTE_READONLY) &&& FILE_ATTRIBUTE_READONLY) 0 = true := by
        simp [Nat.testBit_and, Nat.testBit_or, FILE_ATTRIBUTE_READONLY]
      rw [beq_eq_false_iff_ne.mpr (ne_zero_of_testBit hb)]
      rfl
    | false =>
      show (!((a &&& not32 FILE_ATTRIBUTE_READONLY) &&& FILE_ATTRIBUTE_READONLY == 0)) = false
      rw [land_not32_mask_zero h1lt]
      rfl
  · cases b with
    | true => exact lor_mask_land_not32 h1lt a
    | false => exact land_not32_idem a FILE_ATTRIBUTE_READONLY
  · show (!(a &&& FILE_ATTRIBUTE_READONLY == 0)) = true ↔ _
    simp only [FILE_ATTRIBUTE_READONLY, Nat.and_one_is_mod, Nat.testBit_zero]
    simp only [Bool.not_eq_true', beq_eq_false_iff_ne, ne_eq, decide_eq_true_eq]
    omega

/-- Claim C7, counterexample: on a platform without a birth-time field,
`FileAttr::created` fails with `ErrorKind::Other` (lines 328-332), not with
the spec's `Unsupported` kind, e.g. on the metadata of a regular file with
mode `0o100644`. -/
theorem c7_counterexample :
    FileAttrU.created { st_mode := 0o100644, st_size := 0 } =
      Except.error (IoError.newError ErrorKind.other
        "creation time is not available on this platform currently") ∧
    (IoError.newError ErrorKind.other
        "creation time is not available on this platform currently").kind ≠
      ErrorKind.unsupported := by
  exact ⟨rfl, by decide⟩

/-- Claim C7 as amended: on every platform lacking a birth-time field,
`Metadata::created()` always fails, and the error it fails with is the
constructed error of kind `Other` with message "creation time is not
available on this platform currently" — the code's stand-in for
unsupported functionality; its kind is `Other`, not `Unsupported`. -/
theorem c7_created_always_fails_other :
    ∀ a : FileAttrU,
      a.created = Except.error (IoError.newError ErrorKind.other
        "creation time is not available on this platform currently") ∧
      (IoError.newError ErrorKind.other
        "creation time is not available on this platform currently").kind =
        ErrorKind.other ∧
      ErrorKind.other ≠ ErrorKind.unsupported := by
  intro a
  exact ⟨rfl, rfl, by decide⟩

/-- Claim C8, counterexample: a Unix `DirEntry` whose native `d_type` is
`DT_UNKNOWN` (0).  Each `file_type()` invocation issues one
`symlink_metadata` query (second component), so two repeated calls on the
same, unchanged entry issue two queries in total — the result of the first
call is not cached (the `DirEntry` struct has no cache field and
`file_type` takes `&self`). -/
theorem c8_counterexample :
    (DirEntryU.file_type { d_type := 0 }
        (Except.ok { st_mode := 0o100644, st_size := 0 })).2 = 1 ∧
    (DirEntryU.file_type { d_type := 0 }
        (Except.ok { st_mode := 0o100644, st_size := 0 })).2 +
      (DirEntryU.file_type { d_type := 0 }
        (Except.ok { st_mode := 0o100644, st_size := 0 })).2 = 2 ∧
    ¬((DirEntryU.file_type { d_type := 0 }
        (Except.ok { st_mode := 0o100644, st_size := 0 })).2 +
      (DirEntryU.file_type { d_type := 0 }
        (Except.ok { st_mode := 0o100644, st_size := 0 })).2 ≤ 1) := by
  decide

/-- Claim C8 as amended: `DirEntry::file_type()` on Unix returns the inline
`d_type` hint, issuing no metadata query, when the hint is one of the seven
recognized discriminators; otherwise every single call issues exactly one
follow-up `symlink_metadata` query and returns its mapped result — the
result is not cached, so `k` repeated calls issue `k` queries. -/
theorem c8_file_type_per_call :
    ∀ (d : Nat) (native : Except IoError FileAttrU),
      DirEntryU.file_type { d_type := d } native =
        (if dTypeRecognized d then (Except.ok { mode := dTypeHint d }, 0)
         else (native.map FileAttrU.fileType, 1)) := by
  intro d native
  simp only [DirEntryU.file_type, dTypeRecognized, dTypeHint]
  split_ifs <;> simp_all

/-! ## Helper lemmas for directory enumeration -/

theorem winDirEntryNew_not_pseudo (w e : List Nat)
    (h : winDirEntryNew w = some e) : e ≠ [46] ∧ e ≠ [46, 46] := by
  match w with
  | [] => simp [winDirEntryNew] at h
  | [c0] => simp [winDirEntryNew] at h
  | [c0, c1] => simp [winDirEntryNew] at h
  | c0 :: c1 :: c2 :: rest =>
    rw [winDirEntryNew] at h
    split_ifs at h with h1 h2
    have he : e = truncAtNul (c0 :: c1 :: c2 :: rest) := by
      cases h
      rfl
    subst he
    constructor
    · intro heq
      rw [truncAtNul] at heq
      by_cases hc0 : c0 = 0
      · simp [hc0] at heq
      · by_cases hc1 : c1 = 0
        · simp only [List.takeWhile_cons] at heq
          simp [hc0, hc1] at heq
          exact h1 ⟨heq, hc1⟩
        · simp only [List.takeWhile_cons] at heq
          simp [hc0, hc1] at heq
    · intro heq
      rw [truncAtNul] at heq
      by_cases hc0 : c0 = 0
      · simp [hc0] at heq
      · by_cases hc1 : c1 = 0
        · simp only [List.takeWhile_cons] at heq
          simp [hc0, hc1] at heq
        · by_cases hc2 : c2 = 0
          · simp only [List.takeWhile_cons] at heq
            simp [hc0, hc1, hc2] at heq
            exact h2 ⟨heq.1, heq.2, hc2⟩
          · simp only [List.takeWhile_cons] at heq
            simp [hc0, hc1, hc2] at heq

theorem winNextLoop_not_pseudo :
    ∀ (s : List (List Nat)) (e : List Nat) (s' : List (List Nat)),
      winNextLoop s = some (e, s') → e ≠ [46] ∧ e ≠ [46, 46] := by
  intro s
  induction s with
  | nil => intro e s' h; simp [winNextLoop] at h
  | cons w ws ih =>
    intro e s' h
    rw [winNextLoop] at h
    cases hw : winDirEntryNew w with
    | some x =>
      rw [hw] at h
      injection h with h1
      injection h1 with he hs
      subst he
      exact winDirEntryNew_not_pseudo w x hw
    | none =>
      rw [hw] at h
      exact ih e s' h

end PalFs

namespace PalFs

/-- Claim C5: directory iteration never yields the self or parent
pseudo-entry.  On Unix, `ReadDir::next` is exactly "drop leading `"."` and
`".."` entries, then yield the next entry with the rest of the stream", so
every pseudo-entry is skipped transparently, iteration continues with the
next native entry, and a yielded name is never `"."`/`".."`.  On Windows,
whatever `ReadDir::next` yields (from the buffered first record or the
`FindNextFileW` loop) has passed `DirEntry::new`, so its name is never
`"."` (`[46]`) or `".."` (`[46, 46]`). -/
theorem c5_readdir_filters_pseudo :
    (∀ s : List (List Nat),
      unixReadDirNext s =
        (match s.dropWhile pseudoNameU with
         | [] => none
         | n :: rest => some (n, rest))) ∧
    (∀ (s : List (List Nat)) (n : List Nat) (rest : List (List Nat)),
      unixReadDirNext s = some (n, rest) → pseudoNameU n = false) ∧
    (∀ (r : WinReadDirM) (e : List Nat) (r' : WinReadDirM),
      winReadDirNext r = some (e, r') → e ≠ [46] ∧ e ≠ [46, 46]) := by
  have hchar : ∀ s : List (List Nat),
      unixReadDirNext s =
        (match s.dropWhile pseudoNameU with
         | [] => none
         | n :: rest => some (n, rest)) := by
    intro s
    induction s with
    | nil => rfl
    | cons n rest ih =>
      by_cases h : pseudoNameU n = true
      · have h1 : ¬(n ≠ [46] ∧ n ≠ [46, 46]) := by
          simp only [pseudoNameU, Bool.or_eq_true, decide_eq_true_eq] at h
          tauto
        rw [unixReadDirNext, if_neg h1, List.dropWhile_cons, if_pos h]
        exact ih
      · have h0 : pseudoNameU n = false := by simpa using h
        have h1 : n ≠ [46] ∧ n ≠ [46, 46] := by
          simp only [pseudoNameU, Bool.or_eq_false_iff, decide_eq_false_iff_not] at h0
          exact h0
        rw [unixReadDirNext, if_pos h1, List.dropWhile_cons, if_neg (by simp [h0])]
  refine ⟨hchar, ?_, ?_⟩
  · intro s n rest h
    rw [hchar s] at h
    rcases hd : s.dropWhile pseudoNameU with _ | ⟨m, ms⟩
    · rw [hd] at h
      exact absurd h (by simp)
    · rw [hd] at h
      have hm : n = m := by
        cases h
        rfl
      subst hm
      have := List.head?_dropWhile_not pseudoNameU s
      rw [hd] at this
      simpa using this
  · intro r e r' h
    obtain ⟨fo, rs⟩ := r
    cases fo with
    | some f =>
      simp only [winReadDirNext] at h
      cases hw : winDirEntryNew f with
      | some x =>
        rw [hw] at h
        injection h with h1
        injection h1 with he hs
        subst he
        exact winDirEntryNew_not_pseudo f x hw
      | none =>
        rw [hw] at h
        cases hl : winNextLoop rs with
        | none => rw [hl] at h; exact absurd h (by simp)
        | some x =>
          rw [hl] at h
          simp only [Option.map] at h
          injection h with h1
          injection h1 with he hs
          subst he
          exact winNextLoop_not_pseudo rs x.1 x.2 (by rw [hl])
    | none =>
      simp only [winReadDirNext] at h
      cases hl : winNextLoop rs with
      | none => rw [hl] at h; exact absurd h (by simp)
      | some x =>
        rw [hl] at h
        simp only [Option.map] at h
        injection h with h1
        injection h1 with he hs
        subst he
        exact winNextLoop_not_pseudo rs x.1 x.2 (by rw [hl])

/-- Witness for C5: a stream starting with `"."` and `".."` yields the
first real entry, on both backends. -/
theorem c5_readdir_filters_pseudo_witness :
    pseudoNameU [97] = false ∧ ([97] ≠ [46] ∧ [97] ≠ [46, 46]) :=
  ⟨c5_readdir_filters_pseudo.2.1 [[46], [46, 46], [97]] [97] [] (by decide),
   c5_readdir_filters_pseudo.2.2
     { first := some [46, 0, 0], rest := [[46, 46, 0], [97, 0, 0]] } [97]
     { first := none, rest := [] } (by decide)⟩

/-- The `readlink(2)` buffer loop always returns the stored target exactly,
whatever its length relative to the capacity. -/
theorem readLinkLoopU_exact (target : List Nat) (cap : Nat) :
    readLinkLoopU target cap = target := by
  rw [readLinkLoopU]
  split
  · next h =>
    rw [List.length_take] at h
    exact List.take_of_length_le (by omega)
  · exact readLinkLoopU_exact target (max (2 * cap) (cap + 1))
termination_by target.length + 1 - cap
decreasing_by
  rename_i h
  rw [List.length_take] at h
  omega

/-- Claim C9, counterexample: a Windows symbolic-link reparse payload whose
stored absolute substitute name is `\??\\??\a` (the internal-namespace
prefix stacked twice).  `File::readlink` strips only the single leading
occurrence, so the returned path still begins with — hence contains — the
`\??\` prefix, refuting "the returned path never contains that prefix". -/
theorem c9_counterexample :
    winReadlink (ReparseData.symlinkData
      { substituteNameOffset := 0, substituteNameLength := 18, flags := 0,
        pathBuffer := [92, 63, 63, 92, 92, 63, 63, 92, 97] }) =
      Except.ok [92, 63, 63, 92, 97] ∧
    ntNamespace <+: [92, 63, 63, 92, 97] := by
  exact ⟨by decide, ⟨[97], by decide⟩⟩

/-- Claim C9 as amended: `read_link` returns the stored link target without
resolving further indirection.  On POSIX the returned path is exactly the
stored byte string, whatever its length.  On the Windows backend a relative
symlink target is returned verbatim, while for an absolute target (symlink
tag with the relative flag clear, or mount-point tag) exactly one leading
`\??\` prefix is stripped when present; consequently the returned path does
not start with that prefix unless the stored target stacked it more than
once. -/
theorem c9_read_link :
    (∀ target : List Nat, unixReadLink target = target) ∧
    (∀ b : SymlinkReparseBuffer,
      (b.flags &&& SYMLINK_FLAG_RELATIVE == 0) = false →
      winReadlink (ReparseData.symlinkData b) =
        Except.ok (substName b.pathBuffer b.substituteNameOffset b.substituteNameLength)) ∧
    (∀ b : SymlinkReparseBuffer,
      (b.flags &&& SYMLINK_FLAG_RELATIVE == 0) = true →
      winReadlink (ReparseData.symlinkData b) =
        Except.ok (stripNtNamespace
          (substName b.pathBuffer b.substituteNameOffset b.substituteNameLength))) ∧
    (∀ b : MountPointReparseBuffer,
      winReadlink (ReparseData.mountPointData b) =
        Except.ok (stripNtNamespace
          (substName b.pathBuffer b.substituteNameOffset b.substituteNameLength))) ∧
    (∀ s : List Nat, ¬ ntNamespace <+: s.drop 4 → ¬ ntNamespace <+: stripNtNamespace s) := by
  refine ⟨?_, ?_, ?_, ?_, ?_⟩
  · intro target
    exact readLinkLoopU_exact target 256
  · intro b h
    simp [winReadlink, h]
  · intro b h
    simp only [winReadlink, h, Bool.not_false, Bool.not_true, Bool.true_and, stripNtNamespace]
    split <;> rfl
  · intro b
    simp only [winReadlink, stripNtNamespace]
    split <;> rfl
  · intro s hs
    rw [stripNtNamespace]
    split
    · exact hs
    · next h =>
      intro hpre
      rw [ List.isPrefixOf_iff_prefix] at h
      exact absurd hpre (by simpa using h)

/-- Witness for C9: a relative symlink target `abc` is returned verbatim,
and an absolute mount-point target `\??\C` comes back with the prefix
stripped. -/
theorem c9_read_link_witness :
    winReadlink (ReparseData.symlinkData
      { substituteNameOffset := 0, substituteNameLength := 6, flags := 1,
        pathBuffer := [97, 98, 99] }) = Except.ok [97, 98, 99] ∧
    winReadlink (ReparseData.mountPointData
      { substituteNameOffset := 0, substituteNameLength := 10,
        pathBuffer := [92, 63, 63, 92, 67] }) = Except.ok [67] ∧
    ¬ ntNamespace <+: stripNtNamespace [92, 63, 63, 92, 67] :=
  ⟨c9_read_link.2.1
      { substituteNameOffset := 0, substituteNameLength := 6, flags := 1,
        pathBuffer := [97, 98, 99] } (by decide),
   c9_read_link.2.2.2.1
      { substituteNameOffset := 0, substituteNameLength := 10,
        pathBuffer := [92, 63, 63, 92, 67] },
   c9_read_link.2.2.2.2 [92, 63, 63, 92, 67] (by decide)⟩

/-- A file type known to carry a kind other than `S_IFREG` is not a regular
file: the mode's format bits can only equal one constant. -/
theorem is_file_false_of_kind {t : FileTypeU} {k : Nat}
    (hk : t.isKind k = true) (hne : k ≠ S_IFREG) : t.is_file = false := by
  rw [FileTypeU.isKind, beq_iff_eq] at hk
  rw [FileTypeU.is_file, FileTypeU.isKind, hk]
  exact beq_eq_false_iff_ne.mpr hne

/-- Claim C1, counterexample: the Windows backend performs no source
validation at all.  With a directory source (`FILE_ATTRIBUTE_DIRECTORY`
set, which `FileType::new` classifies as a directory) and a native
`CopyFileExW` that accepts the call and creates the destination, the
Windows `Fs::copy` succeeds — it neither fails with `InvalidInput` nor
leaves the destination uncreated. -/
theorem c1_counterexample :
    windowsCopy (Except.ok { attributes := FILE_ATTRIBUTE_DIRECTORY, reparse_tag := 0 })
        { result := Except.ok 5, destTouched := true } =
      { result := Except.ok 5, destTouched := true } ∧
    (winFileTypeNew FILE_ATTRIBUTE_DIRECTORY 0).is_dir = true ∧
    ({ result := Except.ok 5, destTouched := true } : CopyOutcome).result ≠
      Except.error (IoError.newError ErrorKind.invalidInput
        "the source path is not an existing regular file") ∧
    ({ result := Except.ok 5, destTouched := true } : CopyOutcome).destTouched = true := by
  exact ⟨rfl, by decide, by decide, rfl⟩

/-- Claim C1 as amended: on the Unix backend, `copy(from, to)` validates
that `from` names a regular file before any destination write: if the
source stats as a directory or a special file, copy fails with
`InvalidInput` and the destination-creating call is never issued.  The
Windows backend performs no such validation: it forwards directly to the
native `CopyFileExW`, whose outcome (including any destination creation)
is returned unchanged. -/
theorem c1_copy_source_validation :
    (∀ (env : CopyEnvU) (a : FileAttrU),
      env.fromStat = Except.ok a →
      (a.fileType.is_dir = true ∨ a.fileType.isSpecial = true) →
      unixCopy env =
        { result := Except.error (IoError.newError ErrorKind.invalidInput
            "the source path is not an existing regular file"),
          destTouched := false }) ∧
    (∀ (s : Except IoError FileAttrW) (n : CopyOutcome), windowsCopy s n = n) := by
  constructor
  · intro env a hstat hne
    have hfile : pathIsFile env.fromStat = false := by
      rw [hstat, pathIsFile]
      rcases hne with hd | hs
      · exact is_file_false_of_kind hd (by decide)
      · simp only [FileTypeU.isSpecial, Bool.or_eq_true] at hs
        rcases hs with ((h | h) | h) | h <;>
          exact is_file_false_of_kind h (by decide)
    rw [unixCopy, hfile]
    rfl
  · intro s n
    rfl

/-- Witness for C1: a Unix copy from a directory (mode `0o040755`) fails
`InvalidInput` with the destination untouched; the Windows copy returns
the native outcome unchanged. -/
theorem c1_copy_source_validation_witness :
    unixCopy { fromStat := Except.ok { st_mode := 0o040755, st_size := 0 },
               openFrom := Except.ok (), createTo := Except.ok (),
               readerMeta := Except.ok { st_mode := 0o040755, st_size := 0 },
               ioCopy := Except.ok 0, setPerm := Except.ok () } =
      { result := Except.error (IoError.newError ErrorKind.invalidInput
          "the source path is not an existing regular file"),
        destTouched := false } ∧
    windowsCopy (Except.error (IoError.fromRawOsError 2))
        { result := Except.ok 0, destTouched := false } =
      { result := Except.ok 0, destTouched := false } :=
  ⟨c1_copy_source_validation.1 _ { st_mode := 0o040755, st_size := 0 } rfl
      (Or.inl (by decide)),
   c1_copy_source_validation.2 _ _⟩

/-- Claim C4: `remove_dir_all` removes a symlink path as only the link —
on Unix with `remove_file`, on Windows with `remove_dir` — issuing no other
operation at all (in particular it never enumerates the link's target);
and throughout the recursive walk of a well-formed tree, for any descendant
node classified as a symlink (on Windows: symlink file, symlinked
directory, or junction), no operation ever touches a path strictly inside
it, and the only operation at its own path is the removal of the link
itself (`remove_file` on Unix; `remove_dir` or `remove_file` on Windows,
per the link's flavour). -/
theorem c4_remove_dir_all_symlink_safe :
    (∀ (p : List String) (k : Nat) (f : FsForest Nat),
      (FileTypeU.mk k).is_symlink = true →
      removeDirAllU p (FsTree.node k f) = [FsOp.removeFile p]) ∧
    (∀ (p : List String) (k : Nat × Nat) (f : FsForest (Nat × Nat)),
      (winFileTypeNew k.1 k.2).is_symlink = true →
      removeDirAllW p (FsTree.node k f) = [FsOp.removeDir p]) ∧
    (∀ (p : List String) (t : FsTree Nat), treeWf t = true →
      ∀ (q : List String) (s : FsTree Nat), nodeAt t q = some s →
        (FileTypeU.mk s.kind).is_symlink = true → q ≠ [] →
        ∀ op ∈ removeDirAllU p t, p ++ q <+: op.path →
          op = FsOp.removeFile (p ++ q)) ∧
    (∀ (p : List String) (t : FsTree (Nat × Nat)), treeWf t = true →
      ∀ (q : List String) (s : FsTree (Nat × Nat)), nodeAt t q = some s →
        (winFileTypeNew s.kind.1 s.kind.2).is_symlink = true → q ≠ [] →
        ∀ op ∈ removeDirAllW p t, p ++ q <+: op.path →
          op = FsOp.removeDir (p ++ q) ∨ op = FsOp.removeFile (p ++ q)) := by
  refine ⟨?_, ?_, ?_, ?_⟩
  · intro p k f h
    simp [removeDirAllU, FsTree.kind, h]
  · intro p k f h
    simp [removeDirAllW, FsTree.kind, h]
  · intro p t hwf q s hq hsym hqne op hop hpre
    rw [removeDirAllU] at hop
    split at hop
    · rcases List.mem_singleton.mp hop with rfl
      exact absurd hpre (not_pref_app_self hqne)
    · exact remRecU_symlink_safe p t hwf q s hq hsym hqne op hop hpre
  · intro p t hwf q s hq hsym hqne op hop hpre
    rw [removeDirAllW] at hop
    split at hop
    · rcases List.mem_singleton.mp hop with rfl
      exact absurd hpre (not_pref_app_self hqne)
    · exact remRecW_symlink_safe p t hwf q s hq hsym hqne op hop hpre

/-- Witness for C4: a symlink root (Unix mode `0o120777`; Windows symlinked
directory) is removed as only the link; in a directory containing a
symlinked subdirectory (Unix) resp. a junction (Windows), the walk's only
operation at or below the link's path is the removal of the link. -/
theorem c4_remove_dir_all_symlink_safe_witness :
    removeDirAllU ["l"] (FsTree.node 41471 FsForest.nil) = [FsOp.removeFile ["l"]] ∧
    removeDirAllW ["l"] (FsTree.node (1040, 2684354572) FsForest.nil) =
      [FsOp.removeDir ["l"]] ∧
    FsOp.removeFile ["s"] = FsOp.removeFile ([] ++ ["s"]) ∧
    (FsOp.removeDir ["j"] = FsOp.removeDir ([] ++ ["j"]) ∨
      FsOp.removeDir ["j"] = FsOp.removeFile ([] ++ ["j"])) :=
  ⟨c4_remove_dir_all_symlink_safe.1 ["l"] 41471 FsForest.nil (by decide),
   c4_remove_dir_all_symlink_safe.2.1 ["l"] (1040, 2684354572) FsForest.nil (by decide),
   c4_remove_dir_all_symlink_safe.2.2.1 []
     (FsTree.node 16877 (FsForest.cons "s"
       (FsTree.node 41471 (FsForest.cons "x" (FsTree.node 33188 FsForest.nil)
         FsForest.nil)) FsForest.nil))
     (by decide) ["s"]
     (FsTree.node 41471 (FsForest.cons "x" (FsTree.node 33188 FsForest.nil)
       FsForest.nil))
     rfl (by decide) (by decide) (FsOp.removeFile ["s"]) (by decide)
     (by decide),
   c4_remove_dir_all_symlink_safe.2.2.2 []
     (FsTree.node (16, 0) (FsForest.cons "j"
       (FsTree.node (1040, 2684354563) (FsForest.cons "x"
         (FsTree.node (32, 0) FsForest.nil) FsForest.nil)) FsForest.nil))
     (by decide) ["j"]
     (FsTree.node (1040, 2684354563) (FsForest.cons "x"
       (FsTree.node (32, 0) FsForest.nil) FsForest.nil))
     rfl (by decide) (by decide) (FsOp.removeDir ["j"]) (by decide)
     (by decide)⟩

/-- Claim C10: in the Windows backend, an attribute word with the
reparse-point bit set and the directory bit clear, carrying the mount-point
reparse tag, is classified by `FileType::new` as `ReparsePoint` — never
`MountPoint` or `SymlinkFile` — so `is_symlink()` is false for it and
`remove_dir_all` takes the recursive branch rather than the
link-removal branch for such a path. -/
theorem c10_mount_tag_on_file_is_reparse_point :
    ∀ (attrs tag : Nat),
      attrs &&& FILE_ATTRIBUTE_DIRECTORY = 0 →
      attrs &&& FILE_ATTRIBUTE_REPARSE_POINT ≠ 0 →
      tag = IO_REPARSE_TAG_MOUNT_POINT →
      winFileTypeNew attrs tag = WinFileType.reparsePointT ∧
      (winFileTypeNew attrs tag).is_symlink = false ∧
      (∀ (p : List String) (f : FsForest (Nat × Nat)),
        removeDirAllW p (FsTree.node (attrs, tag) f) =
          removeDirAllRecW p (FsTree.node (attrs, tag) f)) := by
  intro attrs tag h1 h2 h3
  subst h3
  have hft : winFileTypeNew attrs IO_REPARSE_TAG_MOUNT_POINT =
      WinFileType.reparsePointT := by
    rw [winFileTypeNew, h1]
    simp [h2, IO_REPARSE_TAG_MOUNT_POINT, IO_REPARSE_TAG_SYMLINK]
  refine ⟨hft, ?_, ?_⟩
  · rw [hft]
    rfl
  · intro p f
    have hsym : (winFileTypeNew attrs IO_REPARSE_TAG_MOUNT_POINT).is_symlink = false := by
      rw [hft]
      rfl
    show (if (winFileTypeNew attrs IO_REPARSE_TAG_MOUNT_POINT).is_symlink then
        [FsOp.removeDir p]
      else removeDirAllRecW p (FsTree.node (attrs, IO_REPARSE_TAG_MOUNT_POINT) f)) =
      removeDirAllRecW p (FsTree.node (attrs, IO_REPARSE_TAG_MOUNT_POINT) f)
    rw [hsym]
    rfl

/-- Witness for C10: attributes `0x400` (reparse point, not a directory)
with the mount-point tag `0xA0000003`. -/
theorem c10_mount_tag_on_file_is_reparse_point_witness :
    winFileTypeNew 1024 2684354563 = WinFileType.reparsePointT ∧
    (winFileTypeNew 1024 2684354563).is_symlink = false ∧
    removeDirAllW [] (FsTree.node (1024, 2684354563) FsForest.nil) =
      removeDirAllRecW [] (FsTree.node (1024, 2684354563) FsForest.nil) := by
  have h := c10_mount_tag_on_file_is_reparse_point 1024 2684354563
    (by decide) (by decide) rfl
  exact ⟨h.1, h.2.1, h.2.2 [] FsForest.nil⟩

end PalFs
